import Mathlib

/-!
Verification of the hierarchical time-series aggregation engine of the
Climate-Data-Daily-IDN dashboard (`app_streamlit/app.py`).

The embedding models:
* the load-and-join step (`get_station_detail`, `get_climate_data`):
  pandas left merges followed by `sort_values` with nulls last;
* the geography filter in `main` (three optional conjunctive selectors,
  then `climate_data_df[climate_data_df.station_id.isin(stations)]`);
* the aggregation in `show_timeseries`: pandas `groupby`/`resample`
  branches with `mean(numeric_only=True)`.  The resample rule is the
  FIRST LETTER of the selection ("D", "W", "M", "Q", "A"); pandas labels
  those bins by calendar period end (month end, quarter end, Dec 31,
  week-ending Sunday) and emits a dense bin grid from the first to the
  last observed bin;
* the summary in `show_timeseries`: `describe()` over the whole frame
  (sample standard deviation, linearly interpolated quartiles), with
  `set_index(groupby)` merely moving the group column out of the
  described columns.

Dates are modelled as day numbers (days since 0000-03-01 of the
proleptic Gregorian calendar); `toDayNumber`/`civilFromDays` are the
standard civil-calendar conversions.  Missing float cells are `none`;
weather variables are a closed enumeration `Var`.
-/

/-- The nine numeric weather variables of `climate_data.csv`. -/
inductive Var
  | Tn | Tx | Tavg | RH_avg | RR | ss | ff_x | ddd_x | ff_avg
deriving DecidableEq, Fintype

/-- Resample choices offered by `show_timeseries` (besides `None`). -/
inductive Period
  | Daily | Weekly | Monthly | Quarterly | Annually
deriving DecidableEq

/-- Group-by choices offered by `show_timeseries` (besides `None`). -/
inductive GroupBy
  | Province | Region | Station
deriving DecidableEq

/-- A row of `province_detail.csv`. -/
structure ProvinceRow where
  province_id : ℤ
  province_name : String
deriving DecidableEq

/-- A row of `station_detail.csv` before the province merge. -/
structure StationRaw where
  station_id : ℤ
  region_id : ℤ
  province_id : ℤ
  latitude : ℚ
  longitude : ℚ
  station_name : String
  region_name : String
deriving DecidableEq

/-- A row of the merged station table (`get_station_detail`): the raw
station columns plus the left-joined province name (null when the
station's `province_id` has no match). -/
structure StationRow where
  station_id : ℤ
  region_id : ℤ
  province_id : ℤ
  latitude : ℚ
  longitude : ℚ
  station_name : String
  region_name : String
  province_name : Option String
deriving DecidableEq

/-- A row of `climate_data.csv`: one observation. -/
structure ObsRow where
  station_id : ℤ
  date : ℕ
  vals : Var → Option ℚ
deriving DecidableEq

/-- A row of the joined climate table (`get_climate_data`): the
observation plus the left-joined station/geography columns, all of
which are null when the observation's `station_id` has no match. -/
structure ClimateRow where
  station_id : ℤ
  date : ℕ
  vals : Var → Option ℚ
  region_id : Option ℤ
  province_id : Option ℤ
  latitude : Option ℚ
  longitude : Option ℚ
  station_name : Option String
  region_name : Option String
  province_name : Option String
deriving DecidableEq

/-- Sort key of `get_station_detail`:
`sort_values(by=["province_id", "region_id", "station_id"])`. -/
def stationKey (s : StationRow) : Lex (ℤ × Lex (ℤ × ℤ)) :=
  toLex (s.province_id, toLex (s.region_id, s.station_id))

/-- Null-last encoding of a nullable integer sort column
(pandas `sort_values` default `na_position="last"`). -/
def optTop (x : Option ℤ) : WithTop ℤ :=
  match x with
  | none => ⊤
  | some v => (v : WithTop ℤ)

/-- Sort key of `get_climate_data`:
`sort_values(by=["province_id", "region_id", "station_id", "date"])`,
where `province_id`/`region_id` are nullable after the left merge and
nulls sort last. -/
def climKey (r : ClimateRow) : Lex (WithTop ℤ × Lex (WithTop ℤ × Lex (ℤ × ℕ))) :=
  toLex (optTop r.province_id, toLex (optTop r.region_id, toLex (r.station_id, r.date)))

/-- Row ordering used to sort the station table. -/
def stationLe (a b : StationRow) : Prop := stationKey a ≤ stationKey b

/-- Row ordering used to sort the joined climate table. -/
def climLe (a b : ClimateRow) : Prop := climKey a ≤ climKey b

instance : DecidableRel stationLe := fun a b => inferInstanceAs (Decidable (stationKey a ≤ stationKey b))

instance : DecidableRel climLe := fun a b => inferInstanceAs (Decidable (climKey a ≤ climKey b))

instance : IsTotal StationRow stationLe := ⟨fun a b => le_total (stationKey a) (stationKey b)⟩

instance : IsTrans StationRow stationLe :=
  ⟨fun a b c (h : stationKey a ≤ stationKey b) (h2 : stationKey b ≤ stationKey c) => le_trans h h2⟩

instance : IsTotal ClimateRow climLe := ⟨fun a b => le_total (climKey a) (climKey b)⟩

instance : IsTrans ClimateRow climLe :=
  ⟨fun a b c (h : climKey a ≤ climKey b) (h2 : climKey b ≤ climKey c) => le_trans h h2⟩

/-- `pd.merge(df, get_province_detail(), on="province_id", how="left")`
for one station row: every matching province row contributes one output
row; with no match the station is kept with a null province name. -/
def mergeStation (provinces : List ProvinceRow) (s : StationRaw) : List StationRow :=
  match provinces.filter (fun p => p.province_id == s.province_id) with
  | [] => [⟨s.station_id, s.region_id, s.province_id, s.latitude, s.longitude,
           s.station_name, s.region_name, none⟩]
  | ps => ps.map (fun p => ⟨s.station_id, s.region_id, s.province_id, s.latitude, s.longitude,
           s.station_name, s.region_name, some p.province_name⟩)

/-- `get_station_detail`: read stations, left-merge provinces, then
`sort_values(by=["province_id", "region_id", "station_id"])`. -/
def get_station_detail (provinces : List ProvinceRow) (stations : List StationRaw) :
    List StationRow :=
  (stations.flatMap (mergeStation provinces)).insertionSort stationLe

/-- `pd.merge(df, get_station_detail(), on="station_id", how="left")`
for one observation: every matching station row contributes one output
row; with no match the observation is kept with null geography. -/
def mergeObs (sd : List StationRow) (o : ObsRow) : List ClimateRow :=
  match sd.filter (fun s => s.station_id == o.station_id) with
  | [] => [⟨o.station_id, o.date, o.vals, none, none, none, none, none, none, none⟩]
  | ss => ss.map (fun s => ⟨o.station_id, o.date, o.vals, some s.region_id, some s.province_id,
           some s.latitude, some s.longitude, some s.station_name, some s.region_name,
           s.province_name⟩)

/-- `get_climate_data`: read observations, left-merge the station
table, then `sort_values(by=["province_id", "region_id", "station_id",
"date"])`. -/
def get_climate_data (provinces : List ProvinceRow) (stations : List StationRaw)
    (observations : List ObsRow) : List ClimateRow :=
  ((observations.flatMap (mergeObs (get_station_detail provinces stations))).insertionSort climLe)

/-- The geography selectors of `main`: each chosen level filters the
station table by name equality; an unchosen level (`None`) applies no
filter.  (`province_name` is nullable, and pandas `NaN == p` is false,
so null-province rows are dropped whenever a province is selected.) -/
def filter_by_geo (sd : List StationRow) (province region station : Option String) :
    List StationRow :=
  let sd1 := match province with
    | none => sd
    | some p => sd.filter (fun s => s.province_name == some p)
  let sd2 := match region with
    | none => sd1
    | some r => sd1.filter (fun s => s.region_name == r)
  match station with
  | none => sd2
  | some t => sd2.filter (fun s => s.station_name == t)

/-- `main` hands `show_timeseries` the joined observations whose
`station_id` is in the (geo-filtered) station table:
`climate_data_df[climate_data_df.station_id.isin(stations)]`. -/
def mainFiltered (climate : List ClimateRow) (sd : List StationRow)
    (province region station : Option String) : List ClimateRow :=
  let stations := (filter_by_geo sd province region station).map (fun s => s.station_id)
  climate.filter (fun c => stations.contains c.station_id)

/-- Gregorian leap year. -/
def isLeap (y : ℕ) : Bool := y % 4 == 0 && (y % 100 != 0 || y % 400 == 0)

/-- Number of days in a month. -/
def daysInMonth (y m : ℕ) : ℕ :=
  if m == 2 then (if isLeap y then 29 else 28)
  else if m == 4 || m == 6 || m == 9 || m == 11 then 30
  else 31

/-- Day number (days since 0000-03-01) of a civil date, by the standard
era/year-of-era decomposition of the Gregorian calendar. -/
def toDayNumber (y m d : ℕ) : ℕ :=
  let yy := if m ≤ 2 then y - 1 else y
  let era := yy / 400
  let yoe := yy % 400
  let mp := (m + 9) % 12
  let doy := (153 * mp + 2) / 5 + d - 1
  let doe := yoe * 365 + yoe / 4 - yoe / 100 + doy
  era * 146097 + doe

/-- Civil date (year, month, day) of a day number; inverse of
`toDayNumber` on valid dates. -/
def civilFromDays (n : ℕ) : ℕ × ℕ × ℕ :=
  let era := n / 146097
  let doe := n % 146097
  let yoe := (doe - doe / 1460 + doe / 36524 - doe / 146096) / 365
  let y := yoe + era * 400
  let doy := doe - (365 * yoe + yoe / 4 - yoe / 100)
  let mp := (5 * doy + 2) / 153
  let d := doy - (153 * mp + 2) / 5 + 1
  if mp < 10 then (y, mp + 3, d) else (y + 1, mp - 9, d)

/-- The resample bin a date falls into, as an integer bin index, for
each pandas rule used by the app ("D", "W" = weeks ending Sunday,
"M" = calendar months, "Q" = calendar quarters, "A" = calendar years).
Day number n has weekday (n + 2) % 7 with Monday = 0, Sunday = 6. -/
def bucketIdx : Period → ℕ → ℕ
  | Period.Daily, n => n
  | Period.Weekly, n => (n + 2) / 7
  | Period.Monthly, n => 12 * (civilFromDays n).1 + ((civilFromDays n).2.1 - 1)
  | Period.Quarterly, n => 4 * (civilFromDays n).1 + ((civilFromDays n).2.1 - 1) / 3
  | Period.Annually, n => (civilFromDays n).1

/-- The date label pandas attaches to a resample bin: the bin END
(the day itself for "D", the Sunday for "W", the last day of the
month / quarter / year for "M" / "Q" / "A"). -/
def bucketLabel : Period → ℕ → ℕ
  | Period.Daily, i => i
  | Period.Weekly, i => 7 * i + 4
  | Period.Monthly, i => toDayNumber (i / 12) (i % 12 + 1) (daysInMonth (i / 12) (i % 12 + 1))
  | Period.Quarterly, i => toDayNumber (i / 4) (3 * (i % 4) + 3) (daysInMonth (i / 4) (3 * (i % 4) + 3))
  | Period.Annually, i => toDayNumber i 12 31

/-- The column `show_timeseries` groups by, after the `LABELS` rename
("Province" = `province_name`, "Region" = `region_name`,
"Station" = `station_name`).  Nullable: unmatched joins leave nulls,
and pandas `groupby` drops null keys. -/
def groupKey : GroupBy → ClimateRow → Option String
  | GroupBy.Province, r => r.province_name
  | GroupBy.Region, r => r.region_name
  | GroupBy.Station, r => r.station_name

/-- pandas `mean` of a nullable column: the arithmetic mean of the
non-missing values, missing when all values are missing. -/
def meanOpt (xs : List (Option ℚ)) : Option ℚ :=
  let ys := xs.filterMap id
  if ys.isEmpty then none else some (ys.sum / ys.length)

/-- The values of variable v in a cell. -/
def cellVals (rs : List ClimateRow) (v : Var) : List (Option ℚ) :=
  rs.map (fun r => r.vals v)

/-- Ascending list of the distinct elements of xs (the sorted key set
of a pandas groupby). -/
def sortedDedup {α : Type} [LinearOrder α] [DecidableEq α] (xs : List α) : List α :=
  (xs.insertionSort (fun a b => a ≤ b)).dedup

/-- One row of the tidy series produced by `show_timeseries`: the bin
date, the group label (absent when ungrouped), and the mean-reduced
numeric variables. -/
structure OutRow where
  date : ℕ
  group : Option String
  vals : Var → Option ℚ
deriving DecidableEq

/-- The output row of an exact-date cell: the date, the group label,
and every variable reduced by the missing-skipping mean over the
records of the partition carrying that date. -/
def noneRow (k : Option String) (grp : List ClimateRow) (d : ℕ) : OutRow :=
  ⟨d, k, fun v => meanOpt (cellVals (grp.filter (fun r => r.date == d)) v)⟩

/-- `df.groupby("date").mean(numeric_only=True)` over one partition:
one row per distinct date actually present, ascending, each variable
reduced by the missing-skipping mean over that date's records. -/
def aggNoneCore (k : Option String) (grp : List ClimateRow) : List OutRow :=
  (sortedDedup (grp.map (fun r => r.date))).map (noneRow k grp)

/-- First bin index of a partition (left end of the pandas resample
grid). -/
def loIdx (p : Period) (r0 : ClimateRow) (grp : List ClimateRow) : ℕ :=
  (grp.map (fun r => bucketIdx p r.date)).foldl Nat.min (bucketIdx p r0.date)

/-- Last bin index of a partition (right end of the pandas resample
grid). -/
def hiIdx (p : Period) (r0 : ClimateRow) (grp : List ClimateRow) : ℕ :=
  (grp.map (fun r => bucketIdx p r.date)).foldl Nat.max (bucketIdx p r0.date)

/-- The output row of one resample bin: the bin-end label, the group
label, and every variable reduced by the missing-skipping mean over the
records of the partition falling into the bin (all-missing when the
bin is empty). -/
def binRow (p : Period) (k : Option String) (grp : List ClimateRow) (i : ℕ) : OutRow :=
  ⟨bucketLabel p i, k,
   fun v => meanOpt (cellVals (grp.filter (fun r => bucketIdx p r.date == i)) v)⟩

/-- `df.resample(rule).mean(numeric_only=True)` over one partition:
one row per bin from the first to the last observed bin (a DENSE grid —
bins without observations are emitted with all-missing means), labelled
by the bin end, ascending. -/
def resampleCore (p : Period) (k : Option String) (grp : List ClimateRow) : List OutRow :=
  match grp with
  | [] => []
  | r0 :: _ =>
    (List.range' (loIdx p r0 grp) (hiIdx p r0 grp + 1 - loIdx p r0 grp)).map (binRow p k grp)

/-- The ascending non-null key set of a pandas groupby
(null keys are dropped). -/
def groupsOf (g : GroupBy) (rs : List ClimateRow) : List String :=
  sortedDedup (rs.filterMap (groupKey g))

/-- The records of one group. -/
def groupRecs (g : GroupBy) (k : String) (rs : List ClimateRow) : List ClimateRow :=
  rs.filter (fun r => groupKey g r == some k)

/-- The four aggregation branches of `show_timeseries`:
`groupby("date")`, `groupby([groupby, "date"])`, `resample(rule)`,
`groupby(groupby).resample(rule)`, each followed by
`mean(numeric_only=True)`. -/
def aggregate (rs : List ClimateRow) (p : Option Period) (g : Option GroupBy) : List OutRow :=
  match p, g with
  | none, none => aggNoneCore none rs
  | none, some g => (groupsOf g rs).flatMap (fun k => aggNoneCore (some k) (groupRecs g k rs))
  | some p, none => resampleCore p none rs
  | some p, some g => (groupsOf g rs).flatMap (fun k => resampleCore p (some k) (groupRecs g k rs))

/-- The (group, date, value) triples of the series for one variable. -/
def seriesOf (v : Var) (out : List OutRow) : List (Option String × ℕ × Option ℚ) :=
  out.map (fun row => (row.group, row.date, row.vals v))

/-- One column's `describe()` statistics. -/
structure Stats where
  count : ℕ
  mean : Option ℚ
  var : Option ℚ
  min : Option ℚ
  p25 : Option ℚ
  p50 : Option ℚ
  p75 : Option ℚ
  max : Option ℚ
deriving DecidableEq

/-- pandas linearly interpolated percentile of an ascending list. -/
def percentileSorted (ys : List ℚ) (q : ℚ) : Option ℚ :=
  match ys with
  | [] => none
  | _ =>
    let pos : ℚ := q * ((ys.length : ℚ) - 1)
    let i : ℕ := pos.floor.toNat
    let a := ys.getD i 0
    let b := ys.getD (i + 1) a
    some (a + (pos - (i : ℚ)) * (b - a))

/-- One column of `DataFrame.describe()`: count of non-missing values,
mean, standard deviation (modelled by the sample variance, its square;
`none` exactly when pandas yields NaN), min, quartiles, max — all over
the non-missing values only. -/
def describeVals (xs : List (Option ℚ)) : Stats :=
  let ys := (xs.filterMap id).insertionSort (fun a b => a ≤ b)
  let n := ys.length
  let mu := ys.sum / (n : ℚ)
  { count := n
    mean := if n = 0 then none else some mu
    var := if n < 2 then none else some ((ys.map (fun x => (x - mu) ^ 2)).sum / ((n : ℚ) - 1))
    min := ys.head?
    p25 := percentileSorted ys (1 / 4)
    p50 := percentileSorted ys (1 / 2)
    p75 := percentileSorted ys (3 / 4)
    max := ys.getLast? }

/-- The "Dataset Summary" expander of `show_timeseries`:
`data.describe()` when ungrouped, `data.set_index(groupby).describe()`
when grouped.  `describe` computes each column's statistics over ALL
rows of the frame; `set_index(groupby)` only moves the group column out
of the described columns, so both branches yield the same global
per-variable statistics. -/
def summarize (series : List OutRow) (g : Option GroupBy) (v : Var) : Stats :=
  match g with
  | none => describeVals (series.map (fun row => row.vals v))
  | some _ => describeVals (series.map (fun row => row.vals v))

/-- Per-group summary following the spec's words for §4.5 ("when
`group_by` is set, compute the statistic set independently per
group_key"), stated for comparison with `summarize`. -/
def summarizeSpecPerGroup (series : List OutRow) (k : String) (v : Var) : Stats :=
  describeVals ((series.filter (fun row => row.group == some k)).map (fun row => row.vals v))

/-! ### Basic lemmas about the building blocks -/

theorem mem_sortedDedup {α : Type} [LinearOrder α] [DecidableEq α] {xs : List α} {a : α} :
    a ∈ sortedDedup xs ↔ a ∈ xs := by
  unfold sortedDedup
  rw [List.mem_dedup, List.mem_insertionSort]

theorem nodup_sortedDedup {α : Type} [LinearOrder α] [DecidableEq α] (xs : List α) :
    (sortedDedup xs).Nodup :=
  List.nodup_dedup _

theorem foldl_min_le_init : ∀ (l : List ℕ) (a : ℕ), l.foldl Nat.min a ≤ a := by
  intro l
  induction l with
  | nil => intro a; exact le_refl a
  | cons x t ih => intro a; exact le_trans (ih (Nat.min a x)) (Nat.min_le_left a x)

theorem foldl_min_le_mem : ∀ (l : List ℕ) (a x : ℕ), x ∈ l → l.foldl Nat.min a ≤ x := by
  intro l
  induction l with
  | nil => intro a x h; cases h
  | cons y t ih =>
    intro a x h
    rcases List.mem_cons.mp h with h1 | h2
    · subst h1
      exact le_trans (foldl_min_le_init t (Nat.min a x)) (Nat.min_le_right a x)
    · exact ih (Nat.min a y) x h2

theorem init_le_foldl_max : ∀ (l : List ℕ) (a : ℕ), a ≤ l.foldl Nat.max a := by
  intro l
  induction l with
  | nil => intro a; exact le_refl a
  | cons x t ih => intro a; exact le_trans (Nat.le_max_left a x) (ih (Nat.max a x))

theorem mem_le_foldl_max : ∀ (l : List ℕ) (a x : ℕ), x ∈ l → x ≤ l.foldl Nat.max a := by
  intro l
  induction l with
  | nil => intro a x h; cases h
  | cons y t ih =>
    intro a x h
    rcases List.mem_cons.mp h with h1 | h2
    · subst h1
      exact le_trans (Nat.le_max_right a x) (init_le_foldl_max t (Nat.max a x))
    · exact ih (Nat.max a y) x h2

theorem loIdx_le (p : Period) (r0 : ClimateRow) {grp : List ClimateRow} {r : ClimateRow}
    (h : r ∈ grp) : loIdx p r0 grp ≤ bucketIdx p r.date :=
  foldl_min_le_mem _ _ _ (List.mem_map_of_mem _ h)

theorem le_hiIdx (p : Period) (r0 : ClimateRow) {grp : List ClimateRow} {r : ClimateRow}
    (h : r ∈ grp) : bucketIdx p r.date ≤ hiIdx p r0 grp :=
  mem_le_foldl_max _ _ _ (List.mem_map_of_mem _ h)

theorem mem_aggNoneCore {k : Option String} {grp : List ClimateRow} {row : OutRow} :
    row ∈ aggNoneCore k grp ↔
      ∃ d, d ∈ grp.map (fun r => r.date) ∧ row = noneRow k grp d := by
  unfold aggNoneCore
  constructor
  · intro h
    obtain ⟨d, hd, he⟩ := List.mem_map.mp h
    exact ⟨d, mem_sortedDedup.mp hd, he.symm⟩
  · rintro ⟨d, hd, rfl⟩
    exact List.mem_map_of_mem _ (mem_sortedDedup.mpr hd)

theorem noneRow_mem {k : Option String} {grp : List ClimateRow} {r : ClimateRow} (h : r ∈ grp) :
    noneRow k grp r.date ∈ aggNoneCore k grp :=
  mem_aggNoneCore.mpr ⟨r.date, List.mem_map_of_mem _ h, rfl⟩

theorem mem_resampleCore {p : Period} {k : Option String} {r0 : ClimateRow}
    {tl : List ClimateRow} {row : OutRow} :
    row ∈ resampleCore p k (r0 :: tl) ↔
      ∃ i, loIdx p r0 (r0 :: tl) ≤ i ∧ i ≤ hiIdx p r0 (r0 :: tl) ∧
        row = binRow p k (r0 :: tl) i := by
  show row ∈ (List.range' _ _).map _ ↔ _
  constructor
  · intro h
    obtain ⟨i, hi, he⟩ := List.mem_map.mp h
    obtain ⟨h1, h2⟩ := List.mem_range'_1.mp hi
    exact ⟨i, h1, by omega, he.symm⟩
  · rintro ⟨i, h1, h2, rfl⟩
    exact List.mem_map_of_mem _ (List.mem_range'_1.mpr ⟨h1, by omega⟩)

theorem binRow_mem {p : Period} {k : Option String} {r0 : ClimateRow} {tl : List ClimateRow}
    {r : ClimateRow} (h : r ∈ r0 :: tl) :
    binRow p k (r0 :: tl) (bucketIdx p r.date) ∈ resampleCore p k (r0 :: tl) :=
  mem_resampleCore.mpr ⟨_, loIdx_le p r0 h, le_hiIdx p r0 h, rfl⟩

theorem binRow_vals_none {p : Period} {k : Option String} {grp : List ClimateRow} {i : ℕ}
    (h : ∀ r ∈ grp, bucketIdx p r.date ≠ i) (v : Var) :
    (binRow p k grp i).vals v = none := by
  have hf : grp.filter (fun r => bucketIdx p r.date == i) = [] :=
    List.filter_eq_nil_iff.mpr (fun r hr => by simpa using h r hr)
  simp [binRow, hf, cellVals, meanOpt]

theorem mem_groupsOf {g : GroupBy} {rs : List ClimateRow} {k : String} :
    k ∈ groupsOf g rs ↔ ∃ r ∈ rs, groupKey g r = some k := by
  unfold groupsOf
  rw [mem_sortedDedup, List.mem_filterMap]

theorem mem_groupRecs {g : GroupBy} {k : String} {rs : List ClimateRow} {r : ClimateRow} :
    r ∈ groupRecs g k rs ↔ r ∈ rs ∧ groupKey g r = some k := by
  unfold groupRecs
  simp [List.mem_filter]

theorem aggNoneCore_group {k : Option String} {grp : List ClimateRow} {row : OutRow}
    (h : row ∈ aggNoneCore k grp) : row.group = k := by
  obtain ⟨d, _, rfl⟩ := mem_aggNoneCore.mp h
  rfl

theorem resampleCore_group {p : Period} {k : Option String} {grp : List ClimateRow} {row : OutRow}
    (h : row ∈ resampleCore p k grp) : row.group = k := by
  cases grp with
  | nil => cases h
  | cons r0 tl =>
    obtain ⟨i, _, _, rfl⟩ := mem_resampleCore.mp h
    rfl

/-! ### Daily resampling versus exact-date grouping -/

theorem daily_binRow_eq_noneRow (k : Option String) (grp : List ClimateRow) (d : ℕ) :
    binRow Period.Daily k grp d = noneRow k grp d := rfl

theorem daily_core_sub {k : Option String} {grp : List ClimateRow} {row : OutRow}
    (h : row ∈ aggNoneCore k grp) : row ∈ resampleCore Period.Daily k grp := by
  obtain ⟨d, hd, rfl⟩ := mem_aggNoneCore.mp h
  obtain ⟨r, hr, hrd⟩ := List.mem_map.mp hd
  cases grp with
  | nil => cases hr
  | cons r0 tl =>
    rw [← daily_binRow_eq_noneRow]
    subst hrd
    exact binRow_mem hr

theorem daily_core_sup {k : Option String} {grp : List ClimateRow} {row : OutRow}
    (h : row ∈ resampleCore Period.Daily k grp) :
    row ∈ aggNoneCore k grp ∨ ∀ v, row.vals v = none := by
  cases grp with
  | nil => cases h
  | cons r0 tl =>
    obtain ⟨i, _, _, rfl⟩ := mem_resampleCore.mp h
    by_cases hd : i ∈ (r0 :: tl).map (fun r => r.date)
    · left
      rw [daily_binRow_eq_noneRow]
      exact mem_aggNoneCore.mpr ⟨i, hd, rfl⟩
    · right
      intro v
      refine binRow_vals_none (fun r hr hc => hd ?_) v
      rw [← hc]
      exact List.mem_map_of_mem _ hr

/-! ### Counting rows of the aggregated output -/

theorem countP_beq_nodup {l : List ℕ} (h : l.Nodup) (d : ℕ) :
    l.countP (fun x => x == d) = if d ∈ l then 1 else 0 := by
  induction l with
  | nil => simp
  | cons x t ih =>
    rw [List.countP_cons]
    have hnd := List.nodup_cons.mp h
    rcases eq_or_ne x d with rfl | hne
    · simp [ih hnd.2, hnd.1]
    · simp [ih hnd.2, hne, List.mem_cons, hne.symm]

theorem countP_aggNoneCore_date (k : Option String) (grp : List ClimateRow) (d : ℕ) :
    (aggNoneCore k grp).countP (fun row => row.date == d)
      = if d ∈ grp.map (fun r => r.date) then 1 else 0 := by
  unfold aggNoneCore
  rw [List.countP_map]
  have he : ((fun row : OutRow => row.date == d) ∘ noneRow k grp) = fun x => x == d := rfl
  rw [he, countP_beq_nodup (nodup_sortedDedup _) d]
  exact if_congr mem_sortedDedup rfl rfl

theorem countP_aggNoneCore_group_date (k : String) (grp : List ClimateRow) (d : ℕ) :
    (aggNoneCore (some k) grp).countP (fun row => row.group == some k && row.date == d)
      = if d ∈ grp.map (fun r => r.date) then 1 else 0 := by
  have hc : ∀ row ∈ aggNoneCore (some k) grp,
      ((row.group == some k && row.date == d) = true) ↔ ((row.date == d) = true) := by
    intro row hrow
    rw [aggNoneCore_group hrow]
    simp
  exact (List.countP_congr hc).trans (countP_aggNoneCore_date (some k) grp d)

theorem countP_flatMap_group (ks : List String) (f : String → List OutRow) (k : String)
    (q : OutRow → Bool) (hnd : ks.Nodup)
    (hg : ∀ k2 row, row ∈ f k2 → row.group = some k2) :
    ((ks.flatMap f).countP (fun row => row.group == some k && q row))
      = if k ∈ ks then (f k).countP (fun row => row.group == some k && q row) else 0 := by
  induction ks with
  | nil => simp
  | cons k2 t ih =>
    rw [List.flatMap_cons, List.countP_append]
    have hnd2 := List.nodup_cons.mp hnd
    rcases eq_or_ne k2 k with rfl | hne
    · rw [ih hnd2.2]
      simp [hnd2.1]
    · have h0 : (f k2).countP (fun row => row.group == some k && q row) = 0 :=
        List.countP_eq_zero.mpr (fun row hrow => by simp [hg k2 row hrow, hne])
      rw [h0, ih hnd2.2, Nat.zero_add]
      simp [List.mem_cons, hne.symm]

/-! ### Station identifiers survive the merges -/

theorem station_detail_station_id {pv : List ProvinceRow} {st : List StationRaw}
    {row : StationRow} (h : row ∈ get_station_detail pv st) :
    ∃ s ∈ st, row.station_id = s.station_id := by
  unfold get_station_detail at h
  rw [List.mem_insertionSort] at h
  obtain ⟨s, hs, hrow⟩ := List.mem_flatMap.mp h
  refine ⟨s, hs, ?_⟩
  unfold mergeStation at hrow
  split at hrow
  · simp only [List.mem_singleton] at hrow
    rw [hrow]
  · obtain ⟨p, _, hp⟩ := List.mem_map.mp hrow
    rw [← hp]

/-! ### Claim theorems -/

/-- C6: the joined record sequence produced by the load-and-join step
(`get_climate_data`) is sorted by (province_id, region_id, station_id,
date) ascending — monotonically non-decreasing in the composite key,
with null keys encoded as top elements so that they sort last — for
every input file content. -/
theorem C6_joined_sequence_sorted (pv : List ProvinceRow) (st : List StationRaw)
    (obs : List ObsRow) :
    List.Pairwise (fun a b => climKey a ≤ climKey b) (get_climate_data pv st obs) :=
  List.sorted_insertionSort climLe _

/-- C7: the hierarchy joins never fail and never drop rows: every
station row is kept in `get_station_detail` even when its province_id
has no match (its province name becomes null), and every observation is
kept in `get_climate_data` even when its station_id has no match (all
its geography fields become null). -/
theorem C7_joins_never_drop_rows (pv : List ProvinceRow) (st : List StationRaw)
    (obs : List ObsRow) :
    (∀ s ∈ st, ∃ row ∈ get_station_detail pv st,
        row.station_id = s.station_id ∧ row.region_id = s.region_id ∧
        row.province_id = s.province_id ∧ row.station_name = s.station_name ∧
        ((∀ p ∈ pv, p.province_id ≠ s.province_id) → row.province_name = none))
    ∧ (∀ o ∈ obs, ∃ row ∈ get_climate_data pv st obs,
        row.station_id = o.station_id ∧ row.date = o.date ∧ row.vals = o.vals ∧
        ((∀ s ∈ st, s.station_id ≠ o.station_id) →
          row.province_id = none ∧ row.region_id = none ∧ row.station_name = none ∧
          row.region_name = none ∧ row.province_name = none)) := by
  constructor
  · intro s hs
    have hmem : ∀ r ∈ mergeStation pv s, r ∈ get_station_detail pv st := by
      intro r hr
      unfold get_station_detail
      rw [List.mem_insertionSort]
      exact List.mem_flatMap.mpr ⟨s, hs, hr⟩
    cases hfp : pv.filter (fun p => p.province_id == s.province_id) with
    | nil =>
      refine ⟨⟨s.station_id, s.region_id, s.province_id, s.latitude, s.longitude,
        s.station_name, s.region_name, none⟩, hmem _ ?_, rfl, rfl, rfl, rfl, fun _ => rfl⟩
      unfold mergeStation
      rw [hfp]
      exact List.mem_singleton.mpr rfl
    | cons p ps =>
      refine ⟨⟨s.station_id, s.region_id, s.province_id, s.latitude, s.longitude,
        s.station_name, s.region_name, some p.province_name⟩, hmem _ ?_, rfl, rfl, rfl, rfl, ?_⟩
      · unfold mergeStation
        rw [hfp]
        exact List.mem_map_of_mem _ (List.mem_cons_self p ps)
      · intro hnone
        have hp : p ∈ pv.filter (fun p2 => p2.province_id == s.province_id) := by
          rw [hfp]
          exact List.mem_cons_self p ps
        have h2 := List.mem_filter.mp hp
        exact absurd (by simpa using h2.2) (hnone p h2.1)
  · intro o ho
    have hmem : ∀ r ∈ mergeObs (get_station_detail pv st) o, r ∈ get_climate_data pv st obs := by
      intro r hr
      unfold get_climate_data
      rw [List.mem_insertionSort]
      exact List.mem_flatMap.mpr ⟨o, ho, hr⟩
    cases hfs : (get_station_detail pv st).filter (fun s2 => s2.station_id == o.station_id) with
    | nil =>
      refine ⟨⟨o.station_id, o.date, o.vals, none, none, none, none, none, none, none⟩,
        hmem _ ?_, rfl, rfl, rfl, fun _ => ⟨rfl, rfl, rfl, rfl, rfl⟩⟩
      unfold mergeObs
      rw [hfs]
      exact List.mem_singleton.mpr rfl
    | cons s2 ss =>
      refine ⟨⟨o.station_id, o.date, o.vals, some s2.region_id, some s2.province_id,
        some s2.latitude, some s2.longitude, some s2.station_name, some s2.region_name,
        s2.province_name⟩, hmem _ ?_, rfl, rfl, rfl, ?_⟩
      · unfold mergeObs
        rw [hfs]
        exact List.mem_map_of_mem _ (List.mem_cons_self s2 ss)
      · intro hnone
        have hsmem : s2 ∈ (get_station_detail pv st).filter
            (fun s3 => s3.station_id == o.station_id) := by
          rw [hfs]
          exact List.mem_cons_self s2 ss
        have h2 := List.mem_filter.mp hsmem
        obtain ⟨sraw, hsraw, hid⟩ := station_detail_station_id h2.1
        exact absurd (hid.symm.trans (by simpa using h2.2)) (hnone sraw hsraw)

/-- C7 witness: a station whose province_id (2) has no match in the
province table is kept with a null province name, and an observation
whose station_id (99) has no match in the station table is kept with
null geography. -/
theorem C7_joins_never_drop_rows_witness :
    (∃ row ∈ get_station_detail [⟨1, "JAVA"⟩] [⟨10, 5, 2, 0, 0, "S1", "R1"⟩],
      row.station_id = 10 ∧ row.province_name = none)
    ∧ (∃ row ∈ get_climate_data [⟨1, "JAVA"⟩] [⟨10, 5, 2, 0, 0, "S1", "R1"⟩]
        [⟨99, 737730, fun _ => none⟩],
      row.station_id = 99 ∧ row.province_id = none ∧ row.province_name = none) := by
  obtain ⟨h1, h2⟩ := C7_joins_never_drop_rows [⟨1, "JAVA"⟩] [⟨10, 5, 2, 0, 0, "S1", "R1"⟩]
    [⟨99, 737730, fun _ => none⟩]
  constructor
  · obtain ⟨row, hrow, hsid, _, _, _, hmiss⟩ :=
      h1 ⟨10, 5, 2, 0, 0, "S1", "R1"⟩ (List.mem_singleton.mpr rfl)
    exact ⟨row, hrow, hsid, hmiss (by decide)⟩
  · obtain ⟨row, hrow, hsid, _, _, hmiss⟩ :=
      h2 ⟨99, 737730, fun _ => none⟩ (List.mem_singleton.mpr rfl)
    obtain ⟨hpid, _, _, _, hpn⟩ := hmiss (by decide)
    exact ⟨row, hrow, hsid, hpid, hpn⟩

/-- C8: passing no selector for a geographic level is the identity
filter for that level: with province, region and station all unset the
record set is returned unchanged, and hence re-filtering the result of
`filter_by_geo(province=P)` with all levels unset changes nothing. -/
theorem C8_unset_selectors_identity :
    (∀ sd : List StationRow, filter_by_geo sd none none none = sd)
    ∧ (∀ (sd : List StationRow) (P : String),
        filter_by_geo (filter_by_geo sd (some P) none none) none none none
          = filter_by_geo sd (some P) none none) :=
  ⟨fun _ => rfl, fun _ _ => rfl⟩

/-- C9: for every variable, period and grouping, aggregating an empty
record set (as after a geo filter matching nothing) yields an empty
series, not an error: `aggregate` is total and returns `[]` on `[]`. -/
theorem C9_empty_input_empty_series (p : Option Period) (g : Option GroupBy) (v : Var) :
    aggregate [] p g = [] ∧ seriesOf v (aggregate [] p g) = [] := by
  rcases p with _ | p <;> rcases g with _ | g <;> exact ⟨rfl, rfl⟩

/-- C10: for every selector state (including all-unset), the record set
handed to the time-series aggregation is exactly the set of joined
observations whose station_id occurs in the geo-filtered station table;
a joined observation whose station_id is absent from that table is
never handed over, even though the join retains it with null
geography. -/
theorem C10_aggregation_input_membership (pv : List ProvinceRow) (st : List StationRaw)
    (obs : List ObsRow) (province region station : Option String) (c : ClimateRow) :
    c ∈ mainFiltered (get_climate_data pv st obs) (get_station_detail pv st)
        province region station
      ↔ c ∈ get_climate_data pv st obs ∧
        c.station_id ∈ (filter_by_geo (get_station_detail pv st) province region station).map
          (fun s => s.station_id) := by
  unfold mainFiltered
  rw [List.mem_filter]
  simp

/-- C5: every (group, time-bucket) cell reduces each numeric variable
by the arithmetic mean over only the non-missing values: an all-missing
cell yields a missing mean, a single non-missing value among N is
returned exactly, a non-empty cell yields sum/count; and each
aggregation branch emits, for every input record, its cell's row with
every variable reduced by that mean (`noneRow`/`binRow`). -/
theorem C5_mean_over_non_missing :
    (∀ xs : List (Option ℚ), (∀ x ∈ xs, x = none) → meanOpt xs = none)
    ∧ (∀ (xs : List (Option ℚ)) (q : ℚ), xs.filterMap id = [q] → meanOpt xs = some q)
    ∧ (∀ xs : List (Option ℚ), xs.filterMap id ≠ [] →
        meanOpt xs = some ((xs.filterMap id).sum / ((xs.filterMap id).length : ℚ)))
    ∧ (∀ (rs : List ClimateRow) (r : ClimateRow), r ∈ rs →
        noneRow none rs r.date ∈ aggregate rs none none)
    ∧ (∀ (p : Period) (r0 : ClimateRow) (tl : List ClimateRow) (r : ClimateRow),
        r ∈ r0 :: tl →
        binRow p none (r0 :: tl) (bucketIdx p r.date) ∈ aggregate (r0 :: tl) (some p) none)
    ∧ (∀ (g : GroupBy) (k : String) (rs : List ClimateRow) (r : ClimateRow), r ∈ rs →
        groupKey g r = some k →
        noneRow (some k) (groupRecs g k rs) r.date ∈ aggregate rs none (some g))
    ∧ (∀ (p : Period) (g : GroupBy) (k : String) (rs : List ClimateRow) (r : ClimateRow),
        r ∈ rs → groupKey g r = some k →
        binRow p (some k) (groupRecs g k rs) (bucketIdx p r.date)
          ∈ aggregate rs (some p) (some g)) := by
  refine ⟨?_, ?_, ?_, ?_, ?_, ?_, ?_⟩
  · intro xs h
    have hnil : xs.filterMap id = [] := by
      rw [List.filterMap_eq_nil_iff]
      intro x hx
      rw [h x hx]
      rfl
    simp [meanOpt, hnil]
  · intro xs q h
    simp [meanOpt, h]
  · intro xs h
    unfold meanOpt
    rw [if_neg (by simpa [List.isEmpty_iff] using h)]
  · intro rs r h
    exact noneRow_mem h
  · intro p r0 tl r h
    exact binRow_mem h
  · intro g k rs r hr hk
    exact List.mem_flatMap.mpr
      ⟨k, mem_groupsOf.mpr ⟨r, hr, hk⟩, noneRow_mem (mem_groupRecs.mpr ⟨hr, hk⟩)⟩
  · intro p g k rs r hr hk
    have hr2 : r ∈ groupRecs g k rs := mem_groupRecs.mpr ⟨hr, hk⟩
    obtain ⟨r0, tl, heq⟩ := List.exists_cons_of_ne_nil (List.ne_nil_of_mem hr2)
    refine List.mem_flatMap.mpr ⟨k, mem_groupsOf.mpr ⟨r, hr, hk⟩, ?_⟩
    rw [heq] at hr2 ⊢
    exact binRow_mem hr2

/-- C5 witness: an all-missing cell yields a missing mean, a cell with
one non-missing value (7) among three yields 7, and a concrete record's
cell row is emitted by the ungrouped no-period aggregation. -/
theorem C5_mean_over_non_missing_witness :
    meanOpt [none, none] = none
    ∧ meanOpt [none, some 7, none] = some 7
    ∧ noneRow none [⟨1, 737730, fun _ => some 5, none, none, none, none, none, none, none⟩]
        (⟨1, 737730, fun _ => some 5, none, none, none, none, none, none, none⟩ : ClimateRow).date
      ∈ aggregate [⟨1, 737730, fun _ => some 5, none, none, none, none, none, none, none⟩]
        none none :=
  ⟨C5_mean_over_non_missing.1 [none, none] (by decide),
   C5_mean_over_non_missing.2.1 [none, some 7, none] 7 (by decide),
   C5_mean_over_non_missing.2.2.2.1 _ _ (List.mem_singleton.mpr rfl)⟩

/-- A concrete joined record for scenario checks: station 1, one Tavg
value, fixed geography names. -/
def simpleRec (d : ℕ) (q : Option ℚ) (pname : Option String) : ClimateRow :=
  ⟨1, d, fun v => match v with | Var.Tavg => q | _ => none,
   some 1, some 1, some 0, some 0, some "S1", some "R1", pname⟩

/-- C1 counterexample: aggregating Tavg with period=Monthly and no
grouping over observations on 2020-01-05 (Tavg=10) and 2020-01-20
(Tavg=14) yields one row with mean 12, but its date is 2020-01-31 (the
pandas "M" bin END), not the claimed bucket start 2020-01-01. -/
theorem C1_counterexample_month_end_label :
    seriesOf Var.Tavg (aggregate
        [simpleRec (toDayNumber 2020 1 5) (some 10) (some "A"),
         simpleRec (toDayNumber 2020 1 20) (some 14) (some "A")]
        (some Period.Monthly) none)
      = [(none, toDayNumber 2020 1 31, some 12)]
    ∧ toDayNumber 2020 1 31 ≠ toDayNumber 2020 1 1 := by
  constructor
  · simp [seriesOf, aggregate, resampleCore, binRow, loIdx, hiIdx, bucketIdx, bucketLabel,
      civilFromDays, toDayNumber, daysInMonth, isLeap, simpleRec, meanOpt, cellVals,
      List.range']
    norm_num
  · decide

/-- C1 amended: with a set period each record's date is bucketed into
the corresponding calendar period (ISO Monday-to-Sunday weeks for
Weekly, calendar months for Monthly, calendar quarters for Quarterly,
calendar years for Annually), but the date attached to a bucket is the
period END — the week's Sunday, the last day of the month, quarter or
year — not the period start; the Monthly scenario over 2020-01-05
(Tavg=10) and 2020-01-20 (Tavg=14) yields exactly one row with date
2020-01-31 and Tavg 12.0. -/
theorem C1_amended_period_end_binning :
    (seriesOf Var.Tavg (aggregate
        [simpleRec (toDayNumber 2020 1 5) (some 10) (some "A"),
         simpleRec (toDayNumber 2020 1 20) (some 14) (some "A")]
        (some Period.Monthly) none)
      = [(none, toDayNumber 2020 1 31, some 12)])
    ∧ (∀ n : ℕ, n ≤ bucketLabel Period.Weekly (bucketIdx Period.Weekly n)
        ∧ bucketLabel Period.Weekly (bucketIdx Period.Weekly n) < n + 7
        ∧ (bucketLabel Period.Weekly (bucketIdx Period.Weekly n) + 2) % 7 = 6)
    ∧ (∀ y m : ℕ, 1 ≤ m → m ≤ 12 →
        bucketLabel Period.Monthly (12 * y + (m - 1)) = toDayNumber y m (daysInMonth y m))
    ∧ (∀ y q : ℕ, q < 4 →
        bucketLabel Period.Quarterly (4 * y + q)
          = toDayNumber y (3 * q + 3) (daysInMonth y (3 * q + 3)))
    ∧ (∀ y : ℕ, bucketLabel Period.Annually y = toDayNumber y 12 31)
    ∧ (∀ (p : Period) (r0 : ClimateRow) (tl : List ClimateRow) (r : ClimateRow), r ∈ r0 :: tl →
        ∃ row ∈ aggregate (r0 :: tl) (some p) none,
          row.date = bucketLabel p (bucketIdx p r.date)) := by
  refine ⟨?_, ?_, ?_, ?_, fun y => rfl, ?_⟩
  · simp [seriesOf, aggregate, resampleCore, binRow, loIdx, hiIdx, bucketIdx, bucketLabel,
      civilFromDays, toDayNumber, daysInMonth, isLeap, simpleRec, meanOpt, cellVals,
      List.range']
    norm_num
  · intro n
    simp only [bucketLabel, bucketIdx]
    omega
  · intro y m h1 h2
    simp only [bucketLabel]
    have e1 : (12 * y + (m - 1)) / 12 = y := by omega
    have e2 : (12 * y + (m - 1)) % 12 + 1 = m := by omega
    rw [e1, e2]
  · intro y q hq
    simp only [bucketLabel]
    have e1 : (4 * y + q) / 4 = y := by omega
    have e2 : 3 * ((4 * y + q) % 4) + 3 = 3 * q + 3 := by omega
    rw [e1, e2]
  · intro p r0 tl r h
    exact ⟨binRow p none (r0 :: tl) (bucketIdx p r.date), binRow_mem h, rfl⟩

/-- C1 witness: the month-end, quarter-end and bucket-membership parts
of the amended claim at concrete inputs (January 2020, first quarter of
2020, and a one-record January 2020 dataset). -/
theorem C1_amended_period_end_binning_witness :
    bucketLabel Period.Monthly (12 * 2020 + (1 - 1)) = toDayNumber 2020 1 (daysInMonth 2020 1)
    ∧ bucketLabel Period.Quarterly (4 * 2020 + 0)
        = toDayNumber 2020 (3 * 0 + 3) (daysInMonth 2020 (3 * 0 + 3))
    ∧ ∃ row ∈ aggregate [simpleRec (toDayNumber 2020 1 5) (some 10) (some "A")]
        (some Period.Monthly) none,
        row.date = bucketLabel Period.Monthly
          (bucketIdx Period.Monthly (simpleRec (toDayNumber 2020 1 5) (some 10) (some "A")).date) :=
  ⟨C1_amended_period_end_binning.2.2.1 2020 1 (by decide) (by decide),
   C1_amended_period_end_binning.2.2.2.1 2020 0 (by decide),
   C1_amended_period_end_binning.2.2.2.2.2 Period.Monthly _ []
     _ (List.mem_singleton.mpr rfl)⟩

/-- C2 counterexample: over observations on 2020-01-01 (Tavg=10) and
2020-01-03 (Tavg=14), period=None yields two rows (the distinct dates)
while period=Daily yields three — pandas "D" resampling inserts a
missing-valued row for the empty day 2020-01-02 — so the two code paths
differ. -/
theorem C2_counterexample_daily_fills_gaps :
    seriesOf Var.Tavg (aggregate
        [simpleRec (toDayNumber 2020 1 1) (some 10) (some "A"),
         simpleRec (toDayNumber 2020 1 3) (some 14) (some "A")] none none)
      = [(none, toDayNumber 2020 1 1, some 10), (none, toDayNumber 2020 1 3, some 14)]
    ∧ seriesOf Var.Tavg (aggregate
        [simpleRec (toDayNumber 2020 1 1) (some 10) (some "A"),
         simpleRec (toDayNumber 2020 1 3) (some 14) (some "A")] (some Period.Daily) none)
      = [(none, toDayNumber 2020 1 1, some 10), (none, toDayNumber 2020 1 2, none),
         (none, toDayNumber 2020 1 3, some 14)]
    ∧ seriesOf Var.Tavg (aggregate
        [simpleRec (toDayNumber 2020 1 1) (some 10) (some "A"),
         simpleRec (toDayNumber 2020 1 3) (some 14) (some "A")] none none)
      ≠ seriesOf Var.Tavg (aggregate
        [simpleRec (toDayNumber 2020 1 1) (some 10) (some "A"),
         simpleRec (toDayNumber 2020 1 3) (some 14) (some "A")] (some Period.Daily) none) := by
  have ha : seriesOf Var.Tavg (aggregate
      [simpleRec (toDayNumber 2020 1 1) (some 10) (some "A"),
       simpleRec (toDayNumber 2020 1 3) (some 14) (some "A")] none none)
      = [(none, toDayNumber 2020 1 1, some 10), (none, toDayNumber 2020 1 3, some 14)] := by
    simp [seriesOf, aggregate, aggNoneCore, noneRow, sortedDedup, List.insertionSort,
      List.orderedInsert, List.dedup, toDayNumber, simpleRec, meanOpt, cellVals]
  have hb : seriesOf Var.Tavg (aggregate
      [simpleRec (toDayNumber 2020 1 1) (some 10) (some "A"),
       simpleRec (toDayNumber 2020 1 3) (some 14) (some "A")] (some Period.Daily) none)
      = [(none, toDayNumber 2020 1 1, some 10), (none, toDayNumber 2020 1 2, none),
         (none, toDayNumber 2020 1 3, some 14)] := by
    simp [seriesOf, aggregate, resampleCore, binRow, loIdx, hiIdx, bucketIdx, bucketLabel,
      toDayNumber, simpleRec, meanOpt, cellVals, List.range']
  refine ⟨ha, hb, ?_⟩
  rw [ha, hb]
  simp [toDayNumber]

/-- C2 amended: for every dataset and grouping, every row of the
period=None aggregation also appears in the period=Daily aggregation,
and every Daily row is either such a row or an all-missing filler row
(for a calendar day without observations inside the observed range);
the two paths therefore agree exactly where data exists but are not
identical when a group's observed dates have gaps. -/
theorem C2_amended_daily_vs_none (rs : List ClimateRow) (g : Option GroupBy) (row : OutRow) :
    (row ∈ aggregate rs none g → row ∈ aggregate rs (some Period.Daily) g)
    ∧ (row ∈ aggregate rs (some Period.Daily) g →
        row ∈ aggregate rs none g ∨ ∀ v, row.vals v = none) := by
  cases g with
  | none => exact ⟨daily_core_sub, daily_core_sup⟩
  | some gb =>
    constructor
    · intro h
      obtain ⟨k, hk, hrow⟩ := List.mem_flatMap.mp h
      exact List.mem_flatMap.mpr ⟨k, hk, daily_core_sub hrow⟩
    · intro h
      obtain ⟨k, hk, hrow⟩ := List.mem_flatMap.mp h
      rcases daily_core_sup hrow with h1 | h2
      · exact Or.inl (List.mem_flatMap.mpr ⟨k, hk, h1⟩)
      · exact Or.inr h2

/-- C2 witness: for a concrete one-record dataset the no-period row is
also a Daily row. -/
theorem C2_amended_daily_vs_none_witness :
    noneRow none [simpleRec (toDayNumber 2020 1 1) (some 10) (some "A")]
        (simpleRec (toDayNumber 2020 1 1) (some 10) (some "A")).date
      ∈ aggregate [simpleRec (toDayNumber 2020 1 1) (some 10) (some "A")]
        (some Period.Daily) none :=
  (C2_amended_daily_vs_none [simpleRec (toDayNumber 2020 1 1) (some 10) (some "A")] none
      (noneRow none [simpleRec (toDayNumber 2020 1 1) (some 10) (some "A")]
        (simpleRec (toDayNumber 2020 1 1) (some 10) (some "A")).date)).1
    (noneRow_mem (List.mem_singleton.mpr rfl))

theorem aggregate_none_some (g : GroupBy) (rs : List ClimateRow) :
    aggregate rs none (some g)
      = (groupsOf g rs).flatMap (fun k => aggNoneCore (some k) (groupRecs g k rs)) := rfl

theorem aggregate_some_some (p : Period) (g : GroupBy) (rs : List ClimateRow) :
    aggregate rs (some p) (some g)
      = (groupsOf g rs).flatMap (fun k => resampleCore p (some k) (groupRecs g k rs)) := rfl

/-- C3 counterexample: aggregating Tavg with period=Monthly and no
grouping over observations on 2020-01-05 and 2020-03-05 yields THREE
rows — the empty February 2020 bin is emitted as a missing-valued row
dated 2020-02-29 even though no input record falls into that bin — so
the output is not sparse. -/
theorem C3_counterexample_dense_resample :
    seriesOf Var.Tavg (aggregate
        [simpleRec (toDayNumber 2020 1 5) (some 10) (some "A"),
         simpleRec (toDayNumber 2020 3 5) (some 14) (some "A")] (some Period.Monthly) none)
      = [(none, toDayNumber 2020 1 31, some 10), (none, toDayNumber 2020 2 29, none),
         (none, toDayNumber 2020 3 31, some 14)]
    ∧ bucketIdx Period.Monthly (toDayNumber 2020 1 5)
        ≠ bucketIdx Period.Monthly (toDayNumber 2020 2 29)
    ∧ bucketIdx Period.Monthly (toDayNumber 2020 3 5)
        ≠ bucketIdx Period.Monthly (toDayNumber 2020 2 29) := by
  refine ⟨?_, by decide, by decide⟩
  simp [seriesOf, aggregate, resampleCore, binRow, loIdx, hiIdx, bucketIdx, bucketLabel,
    civilFromDays, toDayNumber, daysInMonth, isLeap, simpleRec, meanOpt, cellVals,
    List.range']

/-- C3 amended: without a resample period the series is sparse —
exactly one row per (group, date) pair actually present in the input
and no others, for both the ungrouped and the grouped branch — but with
a set period the series is a DENSE bin grid: one row per bin index from
the first to the last observed bin of each partition, where bins
containing no observation are emitted as rows with every variable
missing rather than being absent. -/
theorem C3_amended_sparse_only_without_period :
    (∀ (rs : List ClimateRow) (d : ℕ),
        (aggregate rs none none).countP (fun row => row.date == d)
          = if d ∈ rs.map (fun r => r.date) then 1 else 0)
    ∧ (∀ (g : GroupBy) (rs : List ClimateRow) (k : String) (d : ℕ),
        (aggregate rs none (some g)).countP (fun row => row.group == some k && row.date == d)
          = if rs.any (fun r => groupKey g r == some k && r.date == d) then 1 else 0)
    ∧ (∀ (p : Period) (r0 : ClimateRow) (tl : List ClimateRow),
        (aggregate (r0 :: tl) (some p) none).length
          = hiIdx p r0 (r0 :: tl) + 1 - loIdx p r0 (r0 :: tl)
        ∧ (∀ i, loIdx p r0 (r0 :: tl) ≤ i → i ≤ hiIdx p r0 (r0 :: tl) →
            binRow p none (r0 :: tl) i ∈ aggregate (r0 :: tl) (some p) none
            ∧ ((∀ r ∈ r0 :: tl, bucketIdx p r.date ≠ i) →
                ∀ v, (binRow p none (r0 :: tl) i).vals v = none)))
    ∧ (∀ (p : Period) (g : GroupBy) (rs : List ClimateRow) (k : String), k ∈ groupsOf g rs →
        ∃ r0 tl, groupRecs g k rs = r0 :: tl ∧
          (aggregate rs (some p) (some g)).countP (fun row => row.group == some k)
            = hiIdx p r0 (r0 :: tl) + 1 - loIdx p r0 (r0 :: tl)
          ∧ (∀ i, loIdx p r0 (r0 :: tl) ≤ i → i ≤ hiIdx p r0 (r0 :: tl) →
              binRow p (some k) (r0 :: tl) i ∈ aggregate rs (some p) (some g))) := by
  refine ⟨?_, ?_, ?_, ?_⟩
  · intro rs d
    exact countP_aggNoneCore_date none rs d
  · intro g rs k d
    rw [aggregate_none_some]
    rw [countP_flatMap_group (groupsOf g rs)
      (fun k2 => aggNoneCore (some k2) (groupRecs g k2 rs)) k (fun row => row.date == d)
      (nodup_sortedDedup _) (fun k2 row hrow => aggNoneCore_group hrow)]
    by_cases hk : k ∈ groupsOf g rs
    · rw [if_pos hk, countP_aggNoneCore_group_date]
      refine if_congr ?_ rfl rfl
      constructor
      · intro hd
        obtain ⟨r, hr, hrd⟩ := List.mem_map.mp hd
        have h2 := mem_groupRecs.mp hr
        refine List.any_eq_true.mpr ⟨r, h2.1, ?_⟩
        simp [h2.2, hrd]
      · intro hany
        obtain ⟨r, hr, hpr⟩ := List.any_eq_true.mp hany
        have h3 : groupKey g r = some k ∧ r.date = d := by simpa using hpr
        exact List.mem_map.mpr ⟨r, mem_groupRecs.mpr ⟨hr, h3.1⟩, h3.2⟩
    · have hc : ¬(rs.any (fun r => groupKey g r == some k && r.date == d) = true) := by
        intro hany
        obtain ⟨r, hr, hpr⟩ := List.any_eq_true.mp hany
        have h3 : groupKey g r = some k ∧ r.date = d := by simpa using hpr
        exact hk (mem_groupsOf.mpr ⟨r, hr, h3.1⟩)
      rw [if_neg hk, if_neg hc]
  · intro p r0 tl
    constructor
    · show ((List.range' _ _).map _).length = _
      rw [List.length_map, List.length_range']
    · intro i h1 h2
      exact ⟨mem_resampleCore.mpr ⟨i, h1, h2, rfl⟩, fun hempty v => binRow_vals_none hempty v⟩
  · intro p g rs k hk
    obtain ⟨r, hr, hkey⟩ := mem_groupsOf.mp hk
    have hr2 : r ∈ groupRecs g k rs := mem_groupRecs.mpr ⟨hr, hkey⟩
    obtain ⟨r0, tl, heq⟩ := List.exists_cons_of_ne_nil (List.ne_nil_of_mem hr2)
    refine ⟨r0, tl, heq, ?_, ?_⟩
    · have e : (fun row : OutRow => row.group == some k)
          = (fun row : OutRow => row.group == some k && true) := by
        funext row
        rw [Bool.and_true]
      rw [aggregate_some_some, e]
      rw [countP_flatMap_group (groupsOf g rs)
        (fun k2 => resampleCore p (some k2) (groupRecs g k2 rs)) k (fun _ => true)
        (nodup_sortedDedup _) (fun k2 row hrow => resampleCore_group hrow)]
      rw [if_pos hk, ← e]
      have hall : ∀ row ∈ resampleCore p (some k) (groupRecs g k rs),
          (row.group == some k) = true := by
        intro row hrow
        rw [resampleCore_group hrow]
        simp
      rw [List.countP_eq_length.mpr hall, heq]
      show ((List.range' _ _).map _).length = _
      rw [List.length_map, List.length_range']
    · intro i h1 h2
      rw [aggregate_some_some]
      refine List.mem_flatMap.mpr ⟨k, hk, ?_⟩
      rw [heq]
      exact mem_resampleCore.mpr ⟨i, h1, h2, rfl⟩

/-- C3 witness: the dense-grid parts of the amended claim at a concrete
one-record January 2020 dataset, ungrouped and grouped by province. -/
theorem C3_amended_sparse_only_without_period_witness :
    (binRow Period.Monthly none [simpleRec (toDayNumber 2020 1 5) (some 10) (some "A")]
        (bucketIdx Period.Monthly (toDayNumber 2020 1 5))
      ∈ aggregate [simpleRec (toDayNumber 2020 1 5) (some 10) (some "A")]
        (some Period.Monthly) none)
    ∧ ∃ r0 tl, groupRecs GroupBy.Province "A"
        [simpleRec (toDayNumber 2020 1 5) (some 10) (some "A")] = r0 :: tl ∧
        (aggregate [simpleRec (toDayNumber 2020 1 5) (some 10) (some "A")]
            (some Period.Monthly) (some GroupBy.Province)).countP
          (fun row => row.group == some "A")
          = hiIdx Period.Monthly r0 (r0 :: tl) + 1 - loIdx Period.Monthly r0 (r0 :: tl) := by
  constructor
  · exact ((C3_amended_sparse_only_without_period.2.2.1 Period.Monthly
      (simpleRec (toDayNumber 2020 1 5) (some 10) (some "A")) []).2
      (bucketIdx Period.Monthly (toDayNumber 2020 1 5)) (by decide) (by decide)).1
  · obtain ⟨r0, tl, he, hc, _⟩ := C3_amended_sparse_only_without_period.2.2.2
      Period.Monthly GroupBy.Province [simpleRec (toDayNumber 2020 1 5) (some 10) (some "A")]
      "A" (by decide)
    exact ⟨r0, tl, he, hc⟩

theorem describeVals_count (xs : List (Option ℚ)) :
    (describeVals xs).count = ((xs.filterMap id).insertionSort (fun a b => a ≤ b)).length := rfl

theorem describeVals_var (xs : List (Option ℚ)) :
    (describeVals xs).var
      = if ((xs.filterMap id).insertionSort (fun a b => a ≤ b)).length < 2 then none
        else some
          ((((xs.filterMap id).insertionSort (fun a b => a ≤ b)).map
              (fun x => (x - ((xs.filterMap id).insertionSort (fun a b => a ≤ b)).sum
                / ((((xs.filterMap id).insertionSort (fun a b => a ≤ b)).length : ℕ) : ℚ)) ^ 2)).sum
            / (((((xs.filterMap id).insertionSort (fun a b => a ≤ b)).length : ℕ) : ℚ) - 1)) := rfl

theorem sum_sq_dev (l : List ℚ) (c : ℚ) :
    (l.map (fun x => (x - c) ^ 2)).sum
      = (l.map (fun x => x ^ 2)).sum - 2 * c * l.sum + (l.length : ℚ) * c ^ 2 := by
  induction l with
  | nil => simp
  | cons x t ih =>
    simp only [List.map_cons, List.sum_cons, List.length_cons, ih]
    push_cast
    ring

/-- The aggregated series used to exhibit the summary divergence: two
provinces A and B observed on the same date with Tavg 10 and 20. -/
def c4series : List OutRow :=
  aggregate [simpleRec 737730 (some 10) (some "A"), simpleRec 737730 (some 20) (some "B")]
    none (some GroupBy.Province)

/-- C4 counterexample: on a grouped series with provinces A (Tavg 10)
and B (Tavg 20), `summarize` — `data.set_index(groupby).describe()` —
returns the single GLOBAL mean 15 for Tavg, while the statistic sets
computed independently per group key (the spec's words, modelled by
`summarizeSpecPerGroup`) are 10 for A and 20 for B; the group key is
not an outer key of the code's result. -/
theorem C4_counterexample_global_describe :
    (summarize c4series (some GroupBy.Province) Var.Tavg).mean = some 15
    ∧ (summarizeSpecPerGroup c4series "A" Var.Tavg).mean = some 10
    ∧ (summarizeSpecPerGroup c4series "B" Var.Tavg).mean = some 20
    ∧ some (15 : ℚ) ≠ some 10 ∧ some (15 : ℚ) ≠ some 20 := by
  refine ⟨?_, ?_, ?_, by norm_num, by norm_num⟩ <;>
    · simp [c4series, summarize, summarizeSpecPerGroup, describeVals, aggregate, aggNoneCore,
        noneRow, groupsOf, groupRecs, groupKey, sortedDedup, List.insertionSort,
        List.orderedInsert, List.dedup, simpleRec, meanOpt, cellVals, seriesOf]
      try norm_num
      try simp

/-- C4 amended: when group_by is set, `summarize` computes ONE global
statistic set over all rows of the series — `set_index(groupby)` merely
removes the group column from the described columns, so the result
equals the ungrouped computation; within that statistic set the
standard deviation does use the sample (N-1) estimator (modelled by the
sample variance), a column with fewer than 2 non-missing values yields
a missing (not zero, not an error) standard deviation, and with N ≥ 2
the sample variance equals (Σx² - (Σx)²/N)/(N-1). -/
theorem C4_amended_summary_is_global :
    (∀ (series : List OutRow) (g : GroupBy) (v : Var),
        summarize series (some g) v = summarize series none v)
    ∧ (∀ xs : List (Option ℚ), (describeVals xs).count < 2 → (describeVals xs).var = none)
    ∧ (∀ xs : List (Option ℚ), 2 ≤ (describeVals xs).count →
        (describeVals xs).var
          = some ((((xs.filterMap id).map (fun x => x ^ 2)).sum
              - ((xs.filterMap id).sum) ^ 2 / (((describeVals xs).count : ℕ) : ℚ))
            / ((((describeVals xs).count : ℕ) : ℚ) - 1))) := by
  refine ⟨fun _ _ _ => rfl, ?_, ?_⟩
  · intro xs h
    rw [describeVals_count] at h
    rw [describeVals_var, if_pos h]
  · intro xs h
    rw [describeVals_count] at h
    rw [describeVals_count, describeVals_var, if_neg (by omega)]
    have hperm : ((xs.filterMap id).insertionSort (fun a b => a ≤ b)).Perm (xs.filterMap id) :=
      List.perm_insertionSort _ _
    have hlen : ((xs.filterMap id).insertionSort (fun a b => a ≤ b)).length
        = (xs.filterMap id).length := hperm.length_eq
    have hsum : ((xs.filterMap id).insertionSort (fun a b => a ≤ b)).sum
        = (xs.filterMap id).sum := hperm.sum_eq
    have hsq : (((xs.filterMap id).insertionSort (fun a b => a ≤ b)).map (fun x => x ^ 2)).sum
        = ((xs.filterMap id).map (fun x => x ^ 2)).sum := (hperm.map _).sum_eq
    rw [hlen] at h
    have hn0 : (((xs.filterMap id).length : ℕ) : ℚ) ≠ 0 := by
      rw [Nat.cast_ne_zero]
      omega
    congr 1
    rw [sum_sq_dev, hsum, hsq, hlen]
    congr 1
    field_simp
    ring

/-- C4 witness: the amended claim at concrete inputs — an empty series
grouped by province, a single-value column (missing variance), and the
two-value column [1, 3] (variance via the sum-of-squares form). -/
theorem C4_amended_summary_is_global_witness :
    summarize [] (some GroupBy.Province) Var.Tavg = summarize [] none Var.Tavg
    ∧ (describeVals [some 3]).var = none
    ∧ (describeVals [some 1, some 3]).var
      = some (((([some (1 : ℚ), some 3].filterMap id).map (fun x => x ^ 2)).sum
          - (([some (1 : ℚ), some 3].filterMap id).sum) ^ 2
            / (((describeVals [some (1 : ℚ), some 3]).count : ℕ) : ℚ))
        / ((((describeVals [some (1 : ℚ), some 3]).count : ℕ) : ℚ) - 1)) :=
  ⟨C4_amended_summary_is_global.1 [] GroupBy.Province Var.Tavg,
   C4_amended_summary_is_global.2.1 [some 3] (by decide),
   C4_amended_summary_is_global.2.2 [some 1, some 3] (by decide)⟩
